import Mathlib

/-!
Verification development for the Medsurg inventory / point-of-sale program
(`medsurg.py`).  The data model, the cart operations, the checkout commit
sequence and the invoice document renderer are embedded shallowly below,
translated from the source; theorems settle the behavioural claims about
them.

Conventions of the embedding:
  * Google-Sheets worksheets are modelled as Lean lists of typed rows.
    `get_all_records` / `get_all_values` drop or keep the header row exactly
    as the gspread API does; where a sheet-level row index appears in the
    source (`row_idx = df_index + 2`, header at sheet row 1), the model uses
    the corresponding 0-based data-row index.
  * Python floats carrying money are modelled as rationals.
  * Fallible operations return `Except` / carry an explicit outcome; the code
    inside the `try:` block of the "Confirm & Print" handler is modelled with
    an injectable adapter failure (`FailCfg`) so that error-path claims can be
    stated.
-/

namespace Medsurg

/-- Error taxonomy.  `insufficientStock`, `notFoundItem` and `indexError` are
produced by the code; `validationError` and `unicodeError` belong to the
spec's taxonomy and the embedding shows whether the code ever produces them;
`adapter` stands for an arbitrary exception thrown by a gspread call. -/
inductive Err where
  | insufficientStock (available : Int)
  | notFoundItem
  | indexError
  | validationError
  | unicodeError
  | adapter (msg : String)
deriving DecidableEq, Repr

/-- One data row of the `Inventory` worksheet
(columns: Item Name, Stock Qty, Unit Price). -/
structure StockRow where
  name : String
  qty : Int
  price : ℚ
deriving DecidableEq, Repr

/-- One element of `st.session_state.cart`
(`{'item': ..., 'qty': ..., 'price': ..., 'subtotal': ...}`, medsurg.py:211). -/
structure CartLine where
  item : String
  qty : Nat
  price : ℚ
  subtotal : ℚ
deriving DecidableEq, Repr

/-- One data row of the `Invoices` worksheet
(columns: Invoice ID, Customer Name, Date, Total Amount). -/
structure InvoiceRow where
  invoiceId : Nat
  customer : String
  date : String
  total : ℚ
deriving DecidableEq, Repr

/-- One data row of the `Invoice_Items` worksheet
(columns: Invoice ID, Item Name, Qty, Subtotal). -/
structure ItemRow where
  invoiceId : Nat
  item : String
  qty : Nat
  subtotal : ℚ
deriving DecidableEq, Repr

/-- The backing store: the data rows of the three worksheets. -/
structure DB where
  invoices : List InvoiceRow
  invoiceItems : List ItemRow
  inventory : List StockRow
deriving DecidableEq, Repr

-- medsurg.py:11-15, company settings
def COMPANY_NAME : String := "MEDSURG TECHNOLOGY"
def COMPANY_ADDRESS : String := "Post Office Box 793, Madina\nAccra, Ghana"
def COMPANY_PHONE : String := "+233 20 479 3691 / +233 24 200 1242"
def COMPANY_EMAIL : String := "medsurgtechnology@gmail.com"
def THANK_YOU_MSG : String := "Thank you for your business!"

/-! ### Text rendering helpers

The source formats numbers with Python f-strings (`str(n)`, `f"{x:.2f}"`,
`f"{total:,.2f}"`); the helpers below embed that decimal rendering. -/

/-- A single decimal digit as a character. -/
def digitCh (d : Nat) : Char := Char.ofNat (48 + d)

/-- Decimal digits of `n`, least significant first; the fuel argument makes
the recursion structural and is always supplied as `n + 1`. -/
def natDigitsAux : Nat → Nat → List Char
  | 0, _ => []
  | _ + 1, 0 => []
  | fuel + 1, n + 1 => digitCh ((n + 1) % 10) :: natDigitsAux fuel ((n + 1) / 10)

/-- `str(n)` for a natural number. -/
def natStr (n : Nat) : String :=
  if n = 0 then "0" else String.mk (natDigitsAux (n + 1) n).reverse

/-- Two-digit zero-padded rendering of `k < 100` (the cents part). -/
def pad2 (k : Nat) : String :=
  if k < 10 then "0" ++ natStr k else natStr k

/-- `f"{q:.2f}"` for a non-negative rational: fixed two decimal places. -/
def fixed2 (q : ℚ) : String :=
  let m : Nat := (q * 100 + 1 / 2).floor.toNat
  natStr (m / 100) ++ "." ++ pad2 (m % 100)

/-- Insert a thousands separator after every three digits; the input is the
digit list least significant first, the output is most significant first. -/
def commaGroup (ds : List Char) : List Char :=
  (ds.enum.flatMap (fun p => if 0 < p.1 ∧ p.1 % 3 = 0 then [',', p.2] else [p.2])).reverse

/-- `f"{q:,.2f}"` for a non-negative rational: two decimal places with
thousands separators in the integer part. -/
def commaFixed2 (q : ℚ) : String :=
  let m : Nat := (q * 100 + 1 / 2).floor.toNat
  String.mk (commaGroup (natDigitsAux (m / 100 + 1) (m / 100))) ++
    (if m / 100 = 0 then "0" else "") ++ "." ++ pad2 (m % 100)

/-- medsurg.py:104-105 — `str(text).encode('latin-1', 'replace').decode('latin-1')`:
every character outside the Latin-1 range is replaced by `?`. -/
def clean (s : String) : String :=
  String.mk (s.data.map (fun c => if c.toNat ≤ 255 then c else '?'))

/-- A string is representable by the renderer's Latin-1 fonts. -/
def latin1Str (s : String) : Bool :=
  s.data.all (fun c => c.toNat ≤ 255)

/-! ### The invoice document model (`create_pdf`, medsurg.py:99-155)

The fixed layout is modelled structurally: each text the source hands to a
drawing call (`cell` / `multi_cell`) becomes a field.  The underlying fpdf
renderer raises on any character outside Latin-1 when the byte output is
produced; `create_pdf` therefore succeeds exactly when every emitted text is
Latin-1 representable. -/

structure Doc where
  companyName : String
  companyAddress : String
  companyPhone : String
  companyEmail : String
  title : String
  customerLine : String
  invoiceLine : String
  dateLine : String
  colDesc : String
  colQty : String
  colUnit : String
  colTotal : String
  rows : List (String × String × String × String)
  grandTotalLabel : String
  grandTotal : String
  thanks : String
deriving DecidableEq, Repr

/-- The document built by `create_pdf` before any byte output happens. -/
def docOf (invoice_id : Nat) (customer_name date : String)
    (items : List CartLine) (total : ℚ) : Doc :=
  { companyName := clean COMPANY_NAME                        -- medsurg.py:109
    companyAddress := clean COMPANY_ADDRESS                  -- medsurg.py:112
    companyPhone := "Tel: " ++ clean COMPANY_PHONE           -- medsurg.py:113
    companyEmail := "Email: " ++ clean COMPANY_EMAIL         -- medsurg.py:114
    title := "OFFICIAL INVOICE"                              -- medsurg.py:122
    customerLine := "Customer: " ++ clean customer_name      -- medsurg.py:125
    invoiceLine := "Invoice #: " ++ natStr invoice_id        -- medsurg.py:126
    dateLine := "Date: " ++ clean date                       -- medsurg.py:128
    colDesc := "Description"
    colQty := "Qty"
    colUnit := "Unit Price"
    colTotal := "Total"
    rows := items.map (fun i =>                              -- medsurg.py:140-144
      (clean i.item, natStr i.qty, fixed2 i.price, fixed2 i.subtotal))
    grandTotalLabel := "GRAND TOTAL (GHS):"                  -- medsurg.py:148
    grandTotal := commaFixed2 total                          -- medsurg.py:149
    thanks := clean THANK_YOU_MSG }                          -- medsurg.py:153

/-- Every text drawn into the document, in drawing order. -/
def docTexts (d : Doc) : List String :=
  [d.companyName, d.companyAddress, d.companyPhone, d.companyEmail, d.title,
   d.customerLine, d.invoiceLine, d.dateLine,
   d.colDesc, d.colQty, d.colUnit, d.colTotal] ++
  d.rows.flatMap (fun r => [r.1, r.2.1, r.2.2.1, r.2.2.2]) ++
  [d.grandTotalLabel, d.grandTotal, d.thanks]

/-- medsurg.py:99-155 — build the document and produce the Latin-1 byte
output; raises (`unicodeError`) iff some drawn text is not Latin-1. -/
def create_pdf (invoice_id : Nat) (customer_name date : String)
    (items : List CartLine) (total : ℚ) : Except Err Doc :=
  let d := docOf invoice_id customer_name date items total
  if (docTexts d).all latin1Str then .ok d else .error .unicodeError

/-! ### Worksheet-level model of `delete_item` (medsurg.py:83-91)

`ws.find(name)` searches every cell of the sheet (header row included) in
row-major order and raises when no cell matches; `ws.delete_rows(cell.row)`
removes the matched cell's whole row.  The `except:` branch shows
"Item not found." and leaves the sheet untouched.  This operation works on
the raw cell strings, so the sheet is a list of rows of strings here. -/

abbrev Sheet := List (List String)

/-- 0-based index of the first row containing a cell equal to `q`
(gspread `ws.find` returns the first match scanning row by row). -/
def wsFindRow (sheet : Sheet) (q : String) : Option Nat :=
  sheet.findIdx? (fun row => row.contains q)

/-- medsurg.py:83-91.  Returns the resulting sheet and `true` on deletion,
`false` when the `except:` branch ran ("Item not found."). -/
def delete_item (sheet : Sheet) (name : String) : Sheet × Bool :=
  match wsFindRow sheet name with
  | some r => (sheet.eraseIdx r, true)
  | none => (sheet, false)

/-! ### The "Add to Cart" handler (medsurg.py:202-212) -/

/-- medsurg.py:202-212.  `df` is the inventory read at the top of tab2
(medsurg.py:191); the handler performs no sheet write, so the store is
passed through unchanged and the result is the new cart plus the outcome
(`none` on success, the shown error otherwise).  The stock / price lookups
take the first row whose Item Name matches (`.values[0]`). -/
def tab2AddToCart (db : DB) (cart : List CartLine) (item : String) (qty : Nat) :
    DB × List CartLine × Option Err :=
  match db.inventory.find? (fun r => r.name == item) with
  | none => (db, cart, some .indexError)
  | some r =>
    if (qty : Int) > r.qty then
      (db, cart, some (.insufficientStock r.qty))      -- "Low Stock! Only {stock} left."
    else
      (db, cart ++ [⟨item, qty, r.price, (qty : ℚ) * r.price⟩], none)

/-! ### The "Confirm & Print" handler (medsurg.py:215-254)

Everything inside the `try:` block is modelled with an injectable adapter
failure: `FailCfg.failAt = some n` makes the `n`-th gspread call raise
`FailCfg.err`.  Adapter calls are numbered in source order:
0,1,2 the three `sh.worksheet` lookups; 3 `ws_inv.get_all_values()`;
4 `ws_inv.append_row`; 5 `ws_stock.get_all_records()`; then for the `i`-th
cart line `6+2i` is `ws_stock.update_cell` and `7+2i` is
`ws_items.append_row`.  The `except Exception as e:` branch displays the
caught exception and leaves the cart alone. -/

structure FailCfg where
  failAt : Option Nat
  err : Err
deriving DecidableEq, Repr

/-- A run with no injected adapter failure. -/
def noFail : FailCfg := ⟨none, .adapter ""⟩

/-- Observable data operations of the commit sequence, for order claims. -/
inductive Ev where
  | countInvoices
  | appendInvoice (r : InvoiceRow)
  | readSnapshot
  | setStock (j : Nat) (v : Int)
  | appendItem (r : ItemRow)
  | render
deriving DecidableEq, Repr

/-- What the handler produced: the button was not rendered (empty cart,
medsurg.py:215), a successful sale, or a caught error (medsurg.py:253-254). -/
structure SaleRec where
  invId : Nat
  doc : Doc
  filename : String
deriving DecidableEq, Repr

inductive Outcome where
  | notRendered
  | ok (r : SaleRec)
  | err (e : Err)
deriving DecidableEq, Repr

structure CkResult where
  db : DB
  cart : List CartLine
  trace : List Ev
  out : Outcome
deriving DecidableEq, Repr

/-- Stock Qty at data-row index `j` (0 when out of range; every use in the
commit loop is in range). -/
def qtyAt (rows : List StockRow) (j : Nat) : Int :=
  ((rows[j]?).map StockRow.qty).getD 0

/-- `ws_stock.update_cell(j + 2, 2, v)`: overwrite only the Stock Qty cell of
data row `j`. -/
def setQtyAt : List StockRow → Nat → Int → List StockRow
  | [], _, _ => []
  | r :: rs, 0, v => { r with qty := v } :: rs
  | r :: rs, j + 1, v => r :: setQtyAt rs j v

/-- Stock of the first inventory row named `X`, as `get_inventory` would
report it (first match, like the pandas lookups in the source). -/
def stockOf (rows : List StockRow) (X : String) : Option Int :=
  (rows.findIdx? (fun r => r.name == X)).map (fun j => qtyAt rows j)

/-- medsurg.py:224 — `total = sum(x['subtotal'] for x in st.session_state.cart)`. -/
def cartTotal (cart : List CartLine) : ℚ :=
  (cart.map CartLine.subtotal).sum

/-- medsurg.py:234 — `inv_id = len(ws_inv.get_all_values()) + 1000`.
`get_all_values` returns every row of the sheet, the header row created by
`init_db` included, hence the `1 +`. -/
def nextInvId (db : DB) : Nat :=
  (1 + db.invoices.length) + 1000

/-- medsurg.py:241-245 — the per-line commit loop.  `stock_df` is the single
snapshot read at medsurg.py:239 and is never re-read inside the loop; `curr`
comes from that snapshot while `update_cell` writes to the live sheet.
`n` is the adapter-call counter.  On failure the store as written so far and
the trace so far accompany the raised error. -/
def commitLoop (cfg : FailCfg) (stock_df : List StockRow) (inv_id : Nat) :
    List CartLine → Nat → DB → List Ev →
    Except (Err × DB × List Ev) (Nat × DB × List Ev)
  | [], n, db, tr => .ok (n, db, tr)
  | l :: rest, n, db, tr =>
    match stock_df.findIdx? (fun r => r.name == l.item) with
    | none => .error (.indexError, db, tr)   -- `.tolist()[0]` raises IndexError
    | some j =>
      let curr := qtyAt stock_df j
      if cfg.failAt = some n then .error (cfg.err, db, tr) else
      let db1 := { db with inventory := setQtyAt db.inventory j (curr - l.qty) }
      let tr1 := tr ++ [.setStock j (curr - l.qty)]
      if cfg.failAt = some (n + 1) then .error (cfg.err, db1, tr1) else
      let row : ItemRow := ⟨inv_id, l.item, l.qty, l.subtotal⟩
      commitLoop cfg stock_df inv_id rest (n + 2)
        { db1 with invoiceItems := db1.invoiceItems ++ [row] }
        (tr1 ++ [.appendItem row])

/-- medsurg.py:227-254 — the body of the "Confirm & Print" click handler
(the `try:`/`except:` block). -/
def checkoutF (cfg : FailCfg) (db0 : DB) (cart : List CartLine)
    (cust ts : String) : CkResult :=
  -- medsurg.py:229-232, the three worksheet lookups
  if cfg.failAt = some 0 then ⟨db0, cart, [], .err cfg.err⟩ else
  if cfg.failAt = some 1 then ⟨db0, cart, [], .err cfg.err⟩ else
  if cfg.failAt = some 2 then ⟨db0, cart, [], .err cfg.err⟩ else
  -- medsurg.py:224, computed before the handler runs
  let total := cartTotal cart
  -- medsurg.py:234
  if cfg.failAt = some 3 then ⟨db0, cart, [], .err cfg.err⟩ else
  let inv_id := nextInvId db0
  let tr0 : List Ev := [.countInvoices]
  -- medsurg.py:238, append the invoice header row
  if cfg.failAt = some 4 then ⟨db0, cart, tr0, .err cfg.err⟩ else
  let hdr : InvoiceRow := ⟨inv_id, cust, ts, total⟩
  let db1 := { db0 with invoices := db0.invoices ++ [hdr] }
  let tr1 := tr0 ++ [.appendInvoice hdr]
  -- medsurg.py:239, the one snapshot read of the stock table
  if cfg.failAt = some 5 then ⟨db1, cart, tr1, .err cfg.err⟩ else
  let stock_df := db1.inventory
  let tr2 := tr1 ++ [.readSnapshot]
  -- medsurg.py:241-245
  match commitLoop cfg stock_df inv_id cart 6 db1 tr2 with
  | .error (e, db', tr') => ⟨db', cart, tr', .err e⟩
  | .ok (_, db2, tr3) =>
    -- medsurg.py:248, render the document
    match create_pdf inv_id cust ts cart total with
    | .error e => ⟨db2, cart, tr3, .err e⟩
    | .ok doc =>
      -- medsurg.py:249-251: download button, then clear the cart
      ⟨db2, [], tr3 ++ [.render],
        .ok ⟨inv_id, doc, "Invoice_" ++ natStr inv_id ++ ".pdf"⟩⟩

/-- medsurg.py:215-254 — the checkout part of tab2: with an empty cart the
whole cart pane, the "Confirm & Print" button included, is not rendered
(`if st.session_state.cart:`), so nothing runs and nothing is written. -/
def tab2Confirm (db0 : DB) (cart : List CartLine) (cust ts : String)
    (cfg : FailCfg) : CkResult :=
  if cart.isEmpty then ⟨db0, cart, [], .notRendered⟩
  else checkoutF cfg db0 cart cust ts

/-! ### Specification-side definitions used to state the claims -/

/-- True exactly when the handler committed the sale. -/
def isCommitted : Outcome → Bool
  | .ok _ => true
  | _ => false

/-- The last cart line whose item name is `X`. -/
def lastLineFor (X : String) (cart : List CartLine) : Option CartLine :=
  (cart.filter (fun l => l.item == X)).getLast?

/-- The two data operations the source's commit loop performs for one cart
line, computed from the single pre-loop snapshot (for the order claim). -/
def lineEvents (snap : List StockRow) (inv_id : Nat) (l : CartLine) : List Ev :=
  match snap.findIdx? (fun r => r.name == l.item) with
  | some j => [.setStock j (qtyAt snap j - l.qty),
               .appendItem ⟨inv_id, l.item, l.qty, l.subtotal⟩]
  | none => []

/-- The snapshot row index the commit loop updates for cart line `l`. -/
def snapIdx (snap : List StockRow) (l : CartLine) : Option Nat :=
  snap.findIdx? (fun r => r.name == l.item)

/-- The last cart line whose commit-loop update lands on snapshot row `j`. -/
def lastAt (snap : List StockRow) (cart : List CartLine) (j : Nat) : Option CartLine :=
  (cart.filter (fun l => snapIdx snap l == some j)).getLast?

/-- Replay of one traced data operation on the store: appends append, the
stock write overwrites one Stock Qty cell, reads and rendering change
nothing.  Used to state that a failed checkout leaves the store in exactly
the state its trace describes — every row already written kept, nothing
compensated or rolled back. -/
def applyEv (db : DB) : Ev → DB
  | .appendInvoice r => { db with invoices := db.invoices ++ [r] }
  | .appendItem r => { db with invoiceItems := db.invoiceItems ++ [r] }
  | .setStock j v => { db with inventory := setQtyAt db.inventory j v }
  | _ => db

/-- Replay a whole trace, in order, on the store. -/
def replayEvents (db : DB) (evs : List Ev) : DB :=
  evs.foldl applyEv db

/-- The commit loop as the claim words it — "for each CartLine re-read that
item's current stock at that point" — written from the claim's words, for
comparison with the source's snapshot-based loop.  Each iteration reads the
stock from the live, already-decremented table. -/
def rereadLoop : List StockRow → List CartLine → Option (List StockRow)
  | inv, [] => some inv
  | inv, l :: rest =>
    match inv.findIdx? (fun r => r.name == l.item) with
    | none => none
    | some j => rereadLoop (setQtyAt inv j (qtyAt inv j - l.qty)) rest

/-! ## Lemmas: text rendering is always Latin-1 representable -/

theorem digitCh_le (d : Nat) (h : d < 10) : (digitCh d).toNat ≤ 255 := by
  interval_cases d <;> decide

theorem mem_natDigitsAux {c : Char} :
    ∀ {f n : Nat}, c ∈ natDigitsAux f n → ∃ d, d < 10 ∧ c = digitCh d := by
  intro f
  induction f with
  | zero => intro n h; simp [natDigitsAux] at h
  | succ f ih =>
    intro n h
    match n with
    | 0 => simp [natDigitsAux] at h
    | n + 1 =>
      rcases List.mem_cons.mp h with h1 | h2
      · exact ⟨(n + 1) % 10, Nat.mod_lt _ (by omega), h1⟩
      · exact ih h2

theorem latin1_mk {l : List Char} (h : ∀ c ∈ l, c.toNat ≤ 255) :
    latin1Str (String.mk l) = true := by
  simpa [latin1Str, List.all_eq_true] using h

theorem latin1_natStr (n : Nat) : latin1Str (natStr n) = true := by
  unfold natStr
  split
  · decide
  · refine latin1_mk fun c hc => ?_
    obtain ⟨d, hd, rfl⟩ := mem_natDigitsAux (List.mem_reverse.mp hc)
    exact digitCh_le d hd

theorem latin1_append {a b : String} (ha : latin1Str a = true)
    (hb : latin1Str b = true) : latin1Str (a ++ b) = true := by
  simp only [latin1Str, List.all_eq_true] at *
  intro c hc
  rcases List.mem_append.mp (by simpa [String.data_append] using hc) with h | h
  · exact ha c h
  · exact hb c h

theorem latin1_pad2 (k : Nat) : latin1Str (pad2 k) = true := by
  unfold pad2
  split
  · exact latin1_append (by decide) (latin1_natStr k)
  · exact latin1_natStr k

theorem latin1_fixed2 (q : ℚ) : latin1Str (fixed2 q) = true := by
  unfold fixed2
  exact latin1_append (latin1_append (latin1_natStr _) (by decide)) (latin1_pad2 _)

theorem mem_commaGroup {c : Char} {ds : List Char} (h : c ∈ commaGroup ds) :
    c = ',' ∨ c ∈ ds := by
  unfold commaGroup at h
  obtain ⟨p, hp, hc⟩ := List.mem_flatMap.mp (List.mem_reverse.mp h)
  have hmem : p.2 ∈ ds := by
    have h2 := List.mem_map_of_mem Prod.snd hp
    rwa [List.enum, List.enumFrom_map_snd] at h2
  by_cases hcond : 0 < p.1 ∧ p.1 % 3 = 0
  · rw [if_pos hcond] at hc
    rcases List.mem_cons.mp hc with rfl | hc2
    · exact Or.inl rfl
    · exact Or.inr (by rw [List.mem_singleton.mp hc2]; exact hmem)
  · rw [if_neg hcond] at hc
    exact Or.inr (by rw [List.mem_singleton.mp hc]; exact hmem)

theorem latin1_commaFixed2 (q : ℚ) : latin1Str (commaFixed2 q) = true := by
  unfold commaFixed2
  refine latin1_append (latin1_append (latin1_append ?_ ?_) (by decide)) (latin1_pad2 _)
  · refine latin1_mk fun c hc => ?_
    rcases mem_commaGroup hc with rfl | hmem
    · decide
    · obtain ⟨d, hd, rfl⟩ := mem_natDigitsAux hmem
      exact digitCh_le d hd
  · split
    · decide
    · decide

theorem latin1_clean (s : String) : latin1Str (clean s) = true := by
  refine latin1_mk fun c hc => ?_
  obtain ⟨c0, _, rfl⟩ := List.mem_map.mp hc
  split
  · assumption
  · decide

/-- `create_pdf` never raises: every drawn text passes the Latin-1 check. -/
theorem create_pdf_ok (invoice_id : Nat) (customer_name date : String)
    (items : List CartLine) (total : ℚ) :
    create_pdf invoice_id customer_name date items total =
      .ok (docOf invoice_id customer_name date items total) := by
  have hall : (docTexts (docOf invoice_id customer_name date items total)).all
      latin1Str = true := by
    rw [List.all_eq_true]
    intro s hs
    simp only [docTexts, docOf] at hs
    rcases List.mem_append.mp hs with hs1 | hs3
    rcases List.mem_append.mp hs1 with hs0 | hs2
    · -- the twelve header texts
      simp only [List.mem_cons, List.not_mem_nil, or_false] at hs0
      rcases hs0 with rfl | rfl | rfl | rfl | rfl | rfl | rfl | rfl | rfl | rfl | rfl | rfl
      · exact latin1_clean _
      · exact latin1_clean _
      · exact latin1_append (by decide) (latin1_clean _)
      · exact latin1_append (by decide) (latin1_clean _)
      · decide
      · exact latin1_append (by decide) (latin1_clean _)
      · exact latin1_append (by decide) (latin1_natStr _)
      · exact latin1_append (by decide) (latin1_clean _)
      · decide
      · decide
      · decide
      · decide
    · -- the table rows
      obtain ⟨r, hr, hsr⟩ := List.mem_flatMap.mp hs2
      obtain ⟨i, _, rfl⟩ := List.mem_map.mp hr
      simp only [List.mem_cons, List.not_mem_nil, or_false] at hsr
      rcases hsr with rfl | rfl | rfl | rfl
      · exact latin1_clean _
      · exact latin1_natStr _
      · exact latin1_fixed2 _
      · exact latin1_fixed2 _
    · -- the three trailing texts
      simp only [List.mem_cons, List.not_mem_nil, or_false] at hs3
      rcases hs3 with rfl | rfl | rfl
      · decide
      · exact latin1_commaFixed2 _
      · exact latin1_clean _
  simp [create_pdf, hall]

/-! ## Lemmas: the stock update primitive -/

theorem map_name_setQtyAt (rows : List StockRow) (j : Nat) (v : Int) :
    (setQtyAt rows j v).map StockRow.name = rows.map StockRow.name := by
  induction rows generalizing j with
  | nil => rfl
  | cons r rs ih =>
    cases j with
    | zero => simp [setQtyAt]
    | succ j => simp [setQtyAt, ih]

theorem qtyAt_setQtyAt_self {rows : List StockRow} {j : Nat}
    (h : j < rows.length) (v : Int) : qtyAt (setQtyAt rows j v) j = v := by
  induction rows generalizing j with
  | nil => simp at h
  | cons r rs ih =>
    cases j with
    | zero => simp [setQtyAt, qtyAt]
    | succ j =>
      simp only [setQtyAt, qtyAt, List.getElem?_cons_succ]
      exact ih (Nat.lt_of_succ_lt_succ h)

theorem qtyAt_setQtyAt_ne {rows : List StockRow} {i j : Nat} (h : i ≠ j) (v : Int) :
    qtyAt (setQtyAt rows j v) i = qtyAt rows i := by
  induction rows generalizing i j with
  | nil => rfl
  | cons r rs ih =>
    cases j with
    | zero =>
      cases i with
      | zero => exact absurd rfl h
      | succ i => simp [setQtyAt, qtyAt]
    | succ j =>
      cases i with
      | zero => simp [setQtyAt, qtyAt]
      | succ i =>
        simp only [setQtyAt, qtyAt, List.getElem?_cons_succ]
        exact @ih i j (by omega)

/-! ## Lemmas: which cart line lands last on a snapshot row -/

theorem lastAt_nil (snap : List StockRow) (j : Nat) : lastAt snap [] j = none := by
  simp [lastAt]

theorem lastAt_cons_of_ne {snap : List StockRow} {l : CartLine} {j : Nat}
    (rest : List CartLine) (h : (snapIdx snap l == some j) = false) :
    lastAt snap (l :: rest) j = lastAt snap rest j := by
  unfold lastAt
  rw [List.filter_cons, if_neg (by simp [h])]

theorem lastAt_cons_of_eq_none {snap : List StockRow} {l : CartLine} {j : Nat}
    {rest : List CartLine} (h : (snapIdx snap l == some j) = true)
    (h2 : lastAt snap rest j = none) : lastAt snap (l :: rest) j = some l := by
  unfold lastAt at h2 ⊢
  rw [List.filter_cons, if_pos (by simp [h]), List.getLast?_eq_none_iff.mp h2]
  rfl

theorem lastAt_cons_of_eq_some {snap : List StockRow} {l l' : CartLine} {j : Nat}
    {rest : List CartLine} (h : (snapIdx snap l == some j) = true)
    (h2 : lastAt snap rest j = some l') : lastAt snap (l :: rest) j = some l' := by
  unfold lastAt at h2 ⊢
  rw [List.filter_cons, if_pos (by simp [h])]
  rcases hfr : rest.filter (fun x => snapIdx snap x == some j) with _ | ⟨x, xs⟩
  · rw [hfr] at h2; simp at h2
  · rw [hfr] at h2
    rw [List.getLast?_cons_cons, h2]

/-! ## Lemmas: the commit loop (medsurg.py:241-245) -/

/-- Shape of a successful run of the commit loop with no injected failure:
the `Invoices` rows are untouched, one `Invoice_Items` row is appended per
cart line in order, the inventory keeps its item names, the emitted trace is
the per-line event pairs, and every row's final stock quantity is the
snapshot value minus the quantity of the LAST cart line that landed on it. -/
theorem commitLoop_ok {snap : List StockRow} {inv_id : Nat} :
    ∀ {cart : List CartLine} {n : Nat} {db : DB} {tr : List Ev}
      {n' : Nat} {db' : DB} {tr' : List Ev},
    commitLoop noFail snap inv_id cart n db tr = .ok (n', db', tr') →
    db.inventory.map StockRow.name = snap.map StockRow.name →
    db'.invoices = db.invoices ∧
    db'.invoiceItems = db.invoiceItems ++
      cart.map (fun l => ItemRow.mk inv_id l.item l.qty l.subtotal) ∧
    db'.inventory.map StockRow.name = snap.map StockRow.name ∧
    tr' = tr ++ cart.flatMap (lineEvents snap inv_id) ∧
    ∀ j, qtyAt db'.inventory j =
      (match lastAt snap cart j with
       | some l => qtyAt snap j - l.qty
       | none => qtyAt db.inventory j) := by
  intro cart
  induction cart with
  | nil =>
    intro n db tr n' db' tr' h hnames
    simp only [commitLoop] at h
    obtain ⟨rfl, rfl, rfl⟩ : n = n' ∧ db = db' ∧ tr = tr' := by
      cases h; exact ⟨rfl, rfl, rfl⟩
    exact ⟨rfl, by simp, hnames, by simp, fun j => by rw [lastAt_nil]⟩
  | cons l rest ih =>
    intro n db tr n' db' tr' h hnames
    rcases hfind : snap.findIdx? (fun r => r.name == l.item) with _ | j
    · rw [commitLoop, hfind] at h
      exact absurd h (by simp)
    · have hj : j < snap.length := by
        obtain ⟨hlt, -⟩ := List.findIdx?_eq_some_iff_getElem.mp hfind
        exact hlt
      have hjdb : j < db.inventory.length := by
        have hlen := congrArg List.length hnames
        simp only [List.length_map] at hlen
        omega
      simp only [commitLoop, hfind, noFail, reduceCtorEq, if_false] at h
      have ih' := ih h (by rw [map_name_setQtyAt]; exact hnames)
      obtain ⟨hinv, hitems, hnames', htr, hqty⟩ := ih'
      refine ⟨hinv, ?_, hnames', ?_, fun j' => ?_⟩
      · rw [hitems]; simp
      · rw [htr]; simp [lineEvents, hfind]
      · have hq := hqty j'
        by_cases hjj : (snapIdx snap l == some j') = true
        · have hjeq : j' = j := by
            have hx := beq_iff_eq.mp hjj
            rw [snapIdx, hfind] at hx
            exact (Option.some.inj hx).symm
          subst hjeq
          rcases hlast : lastAt snap rest j' with _ | l'
          · rw [lastAt_cons_of_eq_none hjj hlast]
            rw [hlast] at hq
            exact hq.trans (qtyAt_setQtyAt_self hjdb _)
          · rw [lastAt_cons_of_eq_some hjj hlast]
            rw [hlast] at hq
            exact hq
        · have hfalse : (snapIdx snap l == some j') = false := by
            simpa using hjj
          have hne : j' ≠ j := by
            intro hc
            subst hc
            rw [snapIdx, hfind] at hfalse
            simp at hfalse
          rw [lastAt_cons_of_ne rest hfalse]
          rcases hlast : lastAt snap rest j' with _ | l'
          · rw [hlast] at hq
            exact hq.trans (qtyAt_setQtyAt_ne hne _)
          · rw [hlast] at hq
            exact hq

/-- A failing run of the commit loop, exactly: when every cart item is
present in the snapshot the raised error is exactly the injected adapter
error; the trace grows by some per-line event sequence `s` that is an
initial segment of the full per-line event sequence, and the store equals
the entry store with exactly the events of `s` replayed, in order — every
row already written is kept, nothing is compensated or rolled back. -/
theorem commitLoop_error {cfg : FailCfg} {snap : List StockRow} {inv_id : Nat} :
    ∀ {cart : List CartLine} {n : Nat} {db : DB} {tr : List Ev}
      {e : Err} {db' : DB} {tr' : List Ev},
    commitLoop cfg snap inv_id cart n db tr = .error (e, db', tr') →
    ((∀ l ∈ cart, (snap.findIdx? (fun r => r.name == l.item)).isSome = true) →
      e = cfg.err) ∧
    ∃ s u, tr' = tr ++ s ∧ db' = replayEvents db s ∧
      cart.flatMap (lineEvents snap inv_id) = s ++ u := by
  intro cart
  induction cart with
  | nil =>
    intro n db tr e db' tr' h
    rw [commitLoop] at h
    exact absurd h (by simp)
  | cons l rest ih =>
    intro n db tr e db' tr' h
    rcases hfind : snap.findIdx? (fun r => r.name == l.item) with _ | j
    · simp only [commitLoop, hfind, Except.error.injEq, Prod.mk.injEq] at h
      obtain ⟨rfl, rfl, rfl⟩ := h
      refine ⟨fun hall => ?_, [], (l :: rest).flatMap (lineEvents snap inv_id),
        by simp, rfl, by simp⟩
      have hl := hall l (by simp)
      rw [hfind] at hl
      simp at hl
    · simp only [commitLoop, hfind] at h
      by_cases h0 : cfg.failAt = some n
      · rw [if_pos h0] at h
        simp only [Except.error.injEq, Prod.mk.injEq] at h
        obtain ⟨rfl, rfl, rfl⟩ := h
        exact ⟨fun _ => rfl, [], (l :: rest).flatMap (lineEvents snap inv_id),
          by simp, rfl, by simp⟩
      · rw [if_neg h0] at h
        by_cases h1 : cfg.failAt = some (n + 1)
        · rw [if_pos h1] at h
          simp only [Except.error.injEq, Prod.mk.injEq] at h
          obtain ⟨rfl, rfl, rfl⟩ := h
          refine ⟨fun _ => rfl, [.setStock j (qtyAt snap j - l.qty)],
            [.appendItem ⟨inv_id, l.item, l.qty, l.subtotal⟩] ++
              rest.flatMap (lineEvents snap inv_id), rfl, rfl, ?_⟩
          simp [lineEvents, hfind]
        · rw [if_neg h1] at h
          obtain ⟨herr, s', u', htr', hdb', hflat'⟩ := ih h
          refine ⟨fun hall => herr (fun l' hl' => hall l' (by simp [hl'])),
            [.setStock j (qtyAt snap j - l.qty),
             .appendItem ⟨inv_id, l.item, l.qty, l.subtotal⟩] ++ s', u', ?_, ?_, ?_⟩
          · rw [htr']
            simp
          · rw [hdb']
            rw [replayEvents, replayEvents, List.foldl_append]
            rfl
          · rw [List.flatMap_cons, hflat']
            simp [lineEvents, hfind]

/-! ## Lemmas: the Confirm and Print handler -/

theorem findIdx?_name_eq {rows1 rows2 : List StockRow} {X : String}
    (h : rows1.map StockRow.name = rows2.map StockRow.name) :
    rows1.findIdx? (fun r => r.name == X) = rows2.findIdx? (fun r => r.name == X) := by
  have e1 : rows1.findIdx? (fun r => r.name == X) =
      (rows1.map StockRow.name).findIdx? (fun nm => nm == X) := by
    rw [List.findIdx?_map]; rfl
  have e2 : rows2.findIdx? (fun r => r.name == X) =
      (rows2.map StockRow.name).findIdx? (fun nm => nm == X) := by
    rw [List.findIdx?_map]; rfl
  rw [e1, e2, h]

theorem noFail_failAt : noFail.failAt = none := rfl

/-- `checkoutF` with no injected failure, unfolded past the (non-failing)
adapter-call gates and the always-successful document rendering. -/
theorem checkoutF_noFail_eq (db : DB) (cart : List CartLine) (cust ts : String) :
    checkoutF noFail db cart cust ts =
      (match commitLoop noFail db.inventory (nextInvId db) cart 6
          ⟨db.invoices ++ [⟨nextInvId db, cust, ts, cartTotal cart⟩],
           db.invoiceItems, db.inventory⟩
          [.countInvoices, .appendInvoice ⟨nextInvId db, cust, ts, cartTotal cart⟩,
           .readSnapshot] with
       | .error (e, db', tr') => ⟨db', cart, tr', .err e⟩
       | .ok (_, db2, tr3) =>
         ⟨db2, [], tr3 ++ [.render],
           .ok ⟨nextInvId db, docOf (nextInvId db) cust ts cart (cartTotal cart),
                "Invoice_" ++ natStr (nextInvId db) ++ ".pdf"⟩⟩) := by
  unfold checkoutF
  simp only [noFail_failAt, reduceCtorEq, reduceIte, List.singleton_append,
    List.cons_append, List.nil_append]
  rcases hcl : commitLoop noFail db.inventory (nextInvId db) cart 6
      ⟨db.invoices ++ [⟨nextInvId db, cust, ts, cartTotal cart⟩],
       db.invoiceItems, db.inventory⟩
      [.countInvoices, .appendInvoice ⟨nextInvId db, cust, ts, cartTotal cart⟩,
       .readSnapshot] with ⟨e, db', tr'⟩ | ⟨n2, db2, tr3⟩
  · rw [hcl]
  · rw [hcl, create_pdf_ok]

/-- Master description of a successful "Confirm & Print" run with no
adapter failure: the assigned invoice number, the rendered document, the
cleared cart, the appended header and line-item rows, the preserved item
names, the emitted operation order, and every row's final stock quantity. -/
theorem tab2_ok {db : DB} {cart : List CartLine} {cust ts : String} {r : SaleRec}
    (h : (tab2Confirm db cart cust ts noFail).out = .ok r) :
    r.invId = nextInvId db ∧
    r.doc = docOf (nextInvId db) cust ts cart (cartTotal cart) ∧
    (tab2Confirm db cart cust ts noFail).cart = [] ∧
    (tab2Confirm db cart cust ts noFail).db.invoices =
      db.invoices ++ [⟨nextInvId db, cust, ts, cartTotal cart⟩] ∧
    (tab2Confirm db cart cust ts noFail).db.invoiceItems = db.invoiceItems ++
      cart.map (fun l => ItemRow.mk (nextInvId db) l.item l.qty l.subtotal) ∧
    (tab2Confirm db cart cust ts noFail).db.inventory.map StockRow.name =
      db.inventory.map StockRow.name ∧
    (tab2Confirm db cart cust ts noFail).trace =
      [.countInvoices, .appendInvoice ⟨nextInvId db, cust, ts, cartTotal cart⟩,
       .readSnapshot] ++ cart.flatMap (lineEvents db.inventory (nextInvId db)) ++
      [.render] ∧
    ∀ j, qtyAt (tab2Confirm db cart cust ts noFail).db.inventory j =
      (match lastAt db.inventory cart j with
       | some l => qtyAt db.inventory j - l.qty
       | none => qtyAt db.inventory j) := by
  by_cases hne : cart.isEmpty
  · rw [tab2Confirm, if_pos hne] at h
    exact absurd h (by simp)
  · have hres : tab2Confirm db cart cust ts noFail = checkoutF noFail db cart cust ts := by
      rw [tab2Confirm, if_neg hne]
    rw [checkoutF_noFail_eq] at hres
    rcases hcl : commitLoop noFail db.inventory (nextInvId db) cart 6
        ⟨db.invoices ++ [⟨nextInvId db, cust, ts, cartTotal cart⟩],
         db.invoiceItems, db.inventory⟩
        [.countInvoices, .appendInvoice ⟨nextInvId db, cust, ts, cartTotal cart⟩,
         .readSnapshot] with ⟨e, dbe, tre⟩ | ⟨n2, db2, tr3⟩
    · rw [hcl] at hres
      rw [hres] at h
      exact absurd h (by simp)
    · rw [hcl] at hres
      rw [hres] at h
      simp only [Outcome.ok.injEq] at h
      obtain ⟨hinv, hitems, hnames, htr, hqty⟩ := commitLoop_ok hcl rfl
      subst h
      refine ⟨rfl, rfl, by rw [hres], by rw [hres, hinv], by rw [hres, hitems],
        by rw [hres, hnames], ?_, fun j => ?_⟩
      · rw [hres, htr]
      · rw [hres]
        exact hqty j

/-! ## Lemmas: relating snapshot row indices to item names -/

theorem lastAt_eq_lastLineFor {rows : List StockRow} {X : String} {j : Nat}
    (hX : rows.findIdx? (fun r => r.name == X) = some j) (cart : List CartLine) :
    lastAt rows cart j = lastLineFor X cart := by
  unfold lastAt lastLineFor
  congr 1
  apply List.filter_congr
  intro l _
  obtain ⟨hjlt, hpX, -⟩ := List.findIdx?_eq_some_iff_getElem.mp hX
  have hnameX : rows[j].name = X := by simpa using hpX
  rw [Bool.eq_iff_iff]
  simp only [beq_iff_eq]
  constructor
  · intro hc
    rw [snapIdx] at hc
    obtain ⟨hlt2, hp2, -⟩ := List.findIdx?_eq_some_iff_getElem.mp hc
    have hn2 : rows[j].name = l.item := by simpa using hp2
    rw [← hn2, hnameX]
  · intro hc
    rw [snapIdx]
    have hfn : (fun r : StockRow => r.name == l.item) = (fun r : StockRow => r.name == X) := by
      funext r
      rw [hc]
    rw [hfn, hX]

theorem lastLineFor_cons_of_ne {a : CartLine} {X : String} (rest : List CartLine)
    (h : (a.item == X) = false) : lastLineFor X (a :: rest) = lastLineFor X rest := by
  rw [lastLineFor, lastLineFor, List.filter_cons, if_neg (by simp [h])]

theorem lastLineFor_self {cart : List CartLine} :
    (cart.map CartLine.item).Nodup → ∀ {l : CartLine}, l ∈ cart →
    lastLineFor l.item cart = some l := by
  induction cart with
  | nil => intro _ l hl; simp at hl
  | cons a rest ih =>
    intro hnodup l hl
    rw [List.map_cons, List.nodup_cons] at hnodup
    obtain ⟨ha, hrest⟩ := hnodup
    rcases List.mem_cons.mp hl with rfl | hmem
    · have hfilter : rest.filter (fun x => x.item == l.item) = [] := by
        rw [List.filter_eq_nil_iff]
        intro x hx hc
        rw [beq_iff_eq] at hc
        exact ha (hc ▸ List.mem_map_of_mem CartLine.item hx)
      rw [lastLineFor, List.filter_cons, if_pos (by simp), hfilter]
      rfl
    · have hne : (a.item == l.item) = false := by
        simp only [beq_eq_false_iff_ne, ne_eq]
        intro hc
        exact ha (hc ▸ List.mem_map_of_mem CartLine.item hmem)
      rw [lastLineFor_cons_of_ne rest hne]
      exact ih hrest hmem

theorem findIdx?_isSome_of_mem {rows : List StockRow} {X : String}
    (h : X ∈ rows.map StockRow.name) :
    (rows.findIdx? (fun r => r.name == X)).isSome = true := by
  rw [List.findIdx?_isSome, List.any_eq_true]
  obtain ⟨r, hr, rfl⟩ := List.mem_map.mp h
  exact ⟨r, hr, by simp⟩

theorem readSnapshot_not_mem_lineEvents (snap : List StockRow) (inv_id : Nat)
    (l : CartLine) : Ev.readSnapshot ∉ lineEvents snap inv_id l := by
  rw [lineEvents]
  rcases hf : snap.findIdx? (fun r => r.name == l.item) with _ | j <;> rw [hf] <;> simp

/-- The committed stock of an item after a successful run: the pre-commit
value minus the quantity of the last cart line for that item. -/
theorem checkout_stock_lastLine {db : DB} {cart : List CartLine} {cust ts X : String}
    {r : SaleRec} {l : CartLine} {s0 : Int}
    (h : (tab2Confirm db cart cust ts noFail).out = .ok r)
    (hlast : lastLineFor X cart = some l)
    (hs0 : stockOf db.inventory X = some s0) :
    stockOf (tab2Confirm db cart cust ts noFail).db.inventory X =
      some (s0 - l.qty) := by
  obtain ⟨-, -, -, -, -, hnames, -, hqty⟩ := tab2_ok h
  rcases hfj : db.inventory.findIdx? (fun r => r.name == X) with _ | j
  · rw [stockOf, hfj] at hs0
    exact absurd hs0 (by simp)
  · have hq0 : qtyAt db.inventory j = s0 := by
      rw [stockOf, hfj] at hs0
      simpa using hs0
    have hAfter : (tab2Confirm db cart cust ts noFail).db.inventory.findIdx?
        (fun r => r.name == X) = some j := by
      rw [findIdx?_name_eq hnames, hfj]
    rw [stockOf, hAfter]
    have hq := hqty j
    rw [lastAt_eq_lastLineFor hfj cart, hlast] at hq
    simp only [Option.map_some']
    rw [hq, hq0]

/-- A successful run reads the stock snapshot exactly once. -/
theorem checkout_snapshot_once {db : DB} {cart : List CartLine} {cust ts : String}
    {r : SaleRec} (h : (tab2Confirm db cart cust ts noFail).out = .ok r) :
    (tab2Confirm db cart cust ts noFail).trace.count Ev.readSnapshot = 1 := by
  obtain ⟨-, -, -, -, -, -, htr, -⟩ := tab2_ok h
  rw [htr, List.count_append, List.count_append]
  have h0 : (cart.flatMap (lineEvents db.inventory (nextInvId db))).count
      Ev.readSnapshot = 0 := by
    rw [List.count_eq_zero]
    intro hmem
    obtain ⟨l', -, hml⟩ := List.mem_flatMap.mp hmem
    exact readSnapshot_not_mem_lineEvents _ _ _ hml
  rw [h0]
  simp [List.count_cons]

/-- Shape of any run of the handler body that surfaces an error, exactly:
the shown error is the raised one, the cart is untouched, the store equals
the entry store with exactly the traced writes replayed in order (every row
already written is kept; nothing is compensated or rolled back), and the
trace is an initial segment of the full commit sequence. -/
theorem checkoutF_err_shape (cfg : FailCfg) (db : DB) (cart : List CartLine)
    (cust ts : String) (e' : Err)
    (hout : (checkoutF cfg db cart cust ts).out = .err e')
    (hpresent : ∀ l ∈ cart, l.item ∈ db.inventory.map StockRow.name) :
    e' = cfg.err ∧
    (checkoutF cfg db cart cust ts).cart = cart ∧
    (checkoutF cfg db cart cust ts).db =
      replayEvents db (checkoutF cfg db cart cust ts).trace ∧
    ∃ u, [Ev.countInvoices,
          Ev.appendInvoice ⟨nextInvId db, cust, ts, cartTotal cart⟩,
          Ev.readSnapshot] ++
        cart.flatMap (lineEvents db.inventory (nextInvId db)) ++ [Ev.render] =
      (checkoutF cfg db cart cust ts).trace ++ u := by
  simp only [checkoutF] at hout ⊢
  by_cases h0 : cfg.failAt = some 0
  · rw [if_pos h0] at hout ⊢
    exact ⟨(Outcome.err.inj hout).symm, rfl, rfl,
      ⟨[Ev.countInvoices, Ev.appendInvoice ⟨nextInvId db, cust, ts, cartTotal cart⟩,
        Ev.readSnapshot] ++ cart.flatMap (lineEvents db.inventory (nextInvId db)) ++
        [Ev.render], by simp⟩⟩
  rw [if_neg h0] at hout ⊢
  by_cases h1 : cfg.failAt = some 1
  · rw [if_pos h1] at hout ⊢
    exact ⟨(Outcome.err.inj hout).symm, rfl, rfl,
      ⟨[Ev.countInvoices, Ev.appendInvoice ⟨nextInvId db, cust, ts, cartTotal cart⟩,
        Ev.readSnapshot] ++ cart.flatMap (lineEvents db.inventory (nextInvId db)) ++
        [Ev.render], by simp⟩⟩
  rw [if_neg h1] at hout ⊢
  by_cases h2 : cfg.failAt = some 2
  · rw [if_pos h2] at hout ⊢
    exact ⟨(Outcome.err.inj hout).symm, rfl, rfl,
      ⟨[Ev.countInvoices, Ev.appendInvoice ⟨nextInvId db, cust, ts, cartTotal cart⟩,
        Ev.readSnapshot] ++ cart.flatMap (lineEvents db.inventory (nextInvId db)) ++
        [Ev.render], by simp⟩⟩
  rw [if_neg h2] at hout ⊢
  by_cases h3 : cfg.failAt = some 3
  · rw [if_pos h3] at hout ⊢
    exact ⟨(Outcome.err.inj hout).symm, rfl, rfl,
      ⟨[Ev.countInvoices, Ev.appendInvoice ⟨nextInvId db, cust, ts, cartTotal cart⟩,
        Ev.readSnapshot] ++ cart.flatMap (lineEvents db.inventory (nextInvId db)) ++
        [Ev.render], by simp⟩⟩
  rw [if_neg h3] at hout ⊢
  by_cases h4 : cfg.failAt = some 4
  · rw [if_pos h4] at hout ⊢
    exact ⟨(Outcome.err.inj hout).symm, rfl, rfl,
      ⟨[Ev.appendInvoice ⟨nextInvId db, cust, ts, cartTotal cart⟩, Ev.readSnapshot] ++
        cart.flatMap (lineEvents db.inventory (nextInvId db)) ++ [Ev.render], by simp⟩⟩
  rw [if_neg h4] at hout ⊢
  by_cases h5 : cfg.failAt = some 5
  · rw [if_pos h5] at hout ⊢
    exact ⟨(Outcome.err.inj hout).symm, rfl, rfl,
      ⟨[Ev.readSnapshot] ++ cart.flatMap (lineEvents db.inventory (nextInvId db)) ++
        [Ev.render], by simp⟩⟩
  rw [if_neg h5] at hout ⊢
  rcases hcl : commitLoop cfg db.inventory (nextInvId db) cart 6
      ⟨db.invoices ++ [⟨nextInvId db, cust, ts, cartTotal cart⟩],
       db.invoiceItems, db.inventory⟩
      ([Ev.countInvoices] ++ [Ev.appendInvoice ⟨nextInvId db, cust, ts, cartTotal cart⟩] ++
       [Ev.readSnapshot]) with ⟨e0, dbe, tre⟩ | ⟨n2, db2, tr3⟩
  · rw [hcl] at hout ⊢
    obtain ⟨herr, s, u0, htr, hdb, hflat⟩ := commitLoop_error hcl
    have he0 : e' = e0 := (Outcome.err.inj hout).symm
    refine ⟨?_, rfl, ?_, ?_⟩
    · rw [he0]
      exact herr (fun l hl => findIdx?_isSome_of_mem (hpresent l hl))
    · rw [htr, hdb, replayEvents, replayEvents, List.foldl_append]
      rfl
    · refine ⟨u0 ++ [Ev.render], ?_⟩
      rw [htr, hflat]
      simp
  · rw [hcl, create_pdf_ok] at hout
    exact absurd hout (by simp)

/-! ## The claims -/

/-- C1 (amended: the claimed per-line equality holds provided each item
appears in at most one cart line; with several lines for one item only the
last line's decrement survives, see the counterexample): for every
successful single-session checkout, each CartLine with item X and qty Q has
X's stock after the commit equal to the stock before the commit minus Q. -/
theorem C1_stock_decrement_per_line (db : DB) (cart : List CartLine)
    (cust ts : String) (r : SaleRec)
    (h : (tab2Confirm db cart cust ts noFail).out = .ok r)
    (hnodup : (cart.map CartLine.item).Nodup) :
    ∀ l ∈ cart, ∀ s0 : Int, stockOf db.inventory l.item = some s0 →
      stockOf (tab2Confirm db cart cust ts noFail).db.inventory l.item =
        some (s0 - l.qty) := by
  intro l hl s0 hs0
  exact checkout_stock_lastLine h (lastLineFor_self hnodup hl) hs0

/-- C2 (amended: with zero cart lines the checkout control is not rendered
at all, so checkout cannot be invoked; nothing is written and no error — in
particular no ValidationError, which the code never produces — is raised):
checkout with an empty cart is a no-op that commits nothing. -/
theorem C2_empty_cart_noop (db : DB) (cust ts : String) (cfg : FailCfg) :
    tab2Confirm db [] cust ts cfg = ⟨db, [], [], .notRendered⟩ ∧
    ∀ e : Err, (tab2Confirm db [] cust ts cfg).out ≠ .err e := by
  exact ⟨rfl, fun e h => by simp [tab2Confirm] at h⟩

/-- C3: an adapter failure raised at any point of the commit sequence is
surfaced to the caller unmodified and the cart is left exactly as it was;
and the engine performs no compensating writes and no rollback: the store
after the failure equals the pre-checkout store with EXACTLY the traced
writes replayed in order (so every header, line-item and stock row written
before the failure is still there, and nothing else was touched), the trace
being an initial segment of the full commit sequence. -/
theorem C3_failure_surfaced_unmodified (db : DB) (cart : List CartLine)
    (cust ts : String) (k : Nat) (e e' : Err)
    (hout : (tab2Confirm db cart cust ts ⟨some k, e⟩).out = .err e')
    (hpresent : ∀ l ∈ cart, l.item ∈ db.inventory.map StockRow.name) :
    e' = e ∧
    (tab2Confirm db cart cust ts ⟨some k, e⟩).cart = cart ∧
    (tab2Confirm db cart cust ts ⟨some k, e⟩).db =
      replayEvents db (tab2Confirm db cart cust ts ⟨some k, e⟩).trace ∧
    ∃ u, [Ev.countInvoices,
          Ev.appendInvoice ⟨nextInvId db, cust, ts, cartTotal cart⟩,
          Ev.readSnapshot] ++
        cart.flatMap (lineEvents db.inventory (nextInvId db)) ++ [Ev.render] =
      (tab2Confirm db cart cust ts ⟨some k, e⟩).trace ++ u := by
  by_cases hne : cart.isEmpty
  · rw [tab2Confirm, if_pos hne] at hout
    exact absurd hout (by simp)
  · have hres : tab2Confirm db cart cust ts ⟨some k, e⟩ =
        checkoutF ⟨some k, e⟩ db cart cust ts := by
      rw [tab2Confirm, if_neg hne]
    rw [hres] at hout ⊢
    exact checkoutF_err_shape _ _ _ _ _ _ hout hpresent

/-- C4 (amended: the stock table is read ONCE into a snapshot after the
header append and each line's new stock is computed from that snapshot —
not re-read per line as the claim words it, see the counterexample): the
commit sequence obtains the invoice id from the row count, appends the
header carrying the cart total, reads the stock snapshot, then per cart
line writes the snapshot-derived stock and appends the line-item row,
renders last, and on full success clears the cart. -/
theorem C4_commit_order (db : DB) (cart : List CartLine) (cust ts : String)
    (r : SaleRec) (h : (tab2Confirm db cart cust ts noFail).out = .ok r) :
    (tab2Confirm db cart cust ts noFail).trace =
      [.countInvoices, .appendInvoice ⟨nextInvId db, cust, ts, cartTotal cart⟩,
       .readSnapshot] ++ cart.flatMap (lineEvents db.inventory (nextInvId db)) ++
      [.render] ∧
    (tab2Confirm db cart cust ts noFail).cart = [] := by
  obtain ⟨-, -, hcart, -, -, -, htr, -⟩ := tab2_ok h
  exact ⟨htr, hcart⟩

/-- C5: "Add to Cart" with qty exceeding the item's current stock fails
reporting the actual available quantity and leaves the cart and the store
unchanged; otherwise it appends a CartLine capturing the item's price at
that instant with subtotal qty × price, and writes nothing to the store. -/
theorem C5_add_to_cart (db : DB) (cart : List CartLine) (item : String)
    (qty : Nat) (row : StockRow)
    (hfind : db.inventory.find? (fun r => r.name == item) = some row) :
    ((qty : Int) > row.qty →
      tab2AddToCart db cart item qty =
        (db, cart, some (.insufficientStock row.qty))) ∧
    (¬ (qty : Int) > row.qty →
      tab2AddToCart db cart item qty =
        (db, cart ++ [⟨item, qty, row.price, (qty : ℚ) * row.price⟩], none)) := by
  constructor <;> intro hq <;> simp [tab2AddToCart, hfind, hq]

/-- C6: after a successful checkout the rendered document has exactly one
table row per cart line, in the order the lines were added, and its grand
total is the two-decimal rendering of the cart total, the sum of the
per-line subtotals computed at add-time (qty × price-at-add). -/
theorem C6_document_rows_total (db : DB) (cart : List CartLine)
    (cust ts : String) (r : SaleRec)
    (h : (tab2Confirm db cart cust ts noFail).out = .ok r)
    (hadd : ∀ l ∈ cart, l.subtotal = (l.qty : ℚ) * l.price) :
    r.doc.rows = cart.map (fun l =>
      (clean l.item, natStr l.qty, fixed2 l.price, fixed2 l.subtotal)) ∧
    r.doc.rows.length = cart.length ∧
    r.doc.grandTotal = commaFixed2 (cartTotal cart) ∧
    cartTotal cart = (cart.map (fun l => (l.qty : ℚ) * l.price)).sum := by
  obtain ⟨-, hdoc, -⟩ := tab2_ok h
  refine ⟨by rw [hdoc]; rfl, by rw [hdoc]; simp [docOf], by rw [hdoc]; rfl, ?_⟩
  rw [cartTotal]
  exact congrArg List.sum (List.map_congr_left hadd)

/-- C7: the invoice identifier assigned at checkout equals the count of
existing invoice header rows plus the fixed offset 1001 (the source's
`+1000` plus the sheet's column-header row, which `get_all_values` also
counts), and each successful checkout appends exactly one header row, so
successive identifiers increase by one. -/
theorem C7_invoice_id_offset (db : DB) (cart : List CartLine) (cust ts : String)
    (r : SaleRec) (h : (tab2Confirm db cart cust ts noFail).out = .ok r) :
    r.invId = db.invoices.length + 1001 ∧
    (tab2Confirm db cart cust ts noFail).db.invoices.length =
      db.invoices.length + 1 ∧
    nextInvId (tab2Confirm db cart cust ts noFail).db = r.invId + 1 := by
  obtain ⟨hid, -, -, hinv, -⟩ := tab2_ok h
  refine ⟨by rw [hid, nextInvId]; omega, by rw [hinv]; simp, ?_⟩
  rw [nextInvId, hinv, hid, nextInvId]
  simp
  omega

/-- C8: removeItem with a name absent from the Inventory table (no cell of
the sheet contains it) fails with NotFound — the handler shows
"Item not found." — and leaves the table unchanged in row count and
content. -/
theorem C8_remove_absent_unchanged (sheet : Sheet) (name : String)
    (h : ∀ row ∈ sheet, row.contains name = false) :
    delete_item sheet name = (sheet, false) := by
  have hfind : wsFindRow sheet name = none := by
    rw [wsFindRow, List.findIdx?_eq_none_iff]
    exact h
  rw [delete_item, hfind]

/-- C9: the document renderer never raises on non-representable characters:
`create_pdf` always succeeds, and every text drawn into the document is
Latin-1 representable because each text field goes through the lossy
substitution `clean` (replacement glyph for characters above U+00FF). -/
theorem C9_renderer_never_raises (invoice_id : Nat) (customer_name date : String)
    (items : List CartLine) (total : ℚ) :
    create_pdf invoice_id customer_name date items total =
      .ok (docOf invoice_id customer_name date items total) ∧
    ∀ s ∈ docTexts (docOf invoice_id customer_name date items total),
      ∀ c ∈ s.data, c.toNat ≤ 255 := by
  refine ⟨create_pdf_ok _ _ _ _ _, fun s hs c hc => ?_⟩
  have h := create_pdf_ok invoice_id customer_name date items total
  by_cases hall : (docTexts (docOf invoice_id customer_name date items total)).all
      latin1Str = true
  · have hstr := List.all_eq_true.mp hall s hs
    rw [latin1Str] at hstr
    simpa using List.all_eq_true.mp hstr c hc
  · simp only [create_pdf] at h
    rw [if_neg hall] at h
    exact absurd h (by simp)

/-- C10: the checkout reads the stock table exactly once before the
per-line loop (one snapshot-read event in the trace) and computes every
line's new stock from that snapshot, so after a successful commit an item's
stock equals the pre-commit value minus the quantity of the LAST cart line
for that item only — earlier lines' decrements are overwritten. -/
theorem C10_snapshot_last_line (db : DB) (cart : List CartLine)
    (cust ts X : String) (r : SaleRec) (l : CartLine) (s0 : Int)
    (h : (tab2Confirm db cart cust ts noFail).out = .ok r)
    (hlast : lastLineFor X cart = some l)
    (hs0 : stockOf db.inventory X = some s0) :
    stockOf (tab2Confirm db cart cust ts noFail).db.inventory X =
      some (s0 - l.qty) ∧
    (tab2Confirm db cart cust ts noFail).trace.count Ev.readSnapshot = 1 := by
  exact ⟨checkout_stock_lastLine h hlast hs0, checkout_snapshot_once h⟩

/-! ## Counterexamples and witnesses

The rational-number operations of the standard library are marked
irreducible for the elaborator; making them semireducible locally lets
`decide` evaluate the model on the concrete stores and carts below. -/

section

attribute [local semireducible] Rat.mul Rat.add Rat.sub Rat.inv

/-- C1 counterexample: with two cart lines for the same item ("Gauze" 10 in
stock, lines of qty 2 and qty 3) the checkout succeeds but the first line's
decrement is overwritten: stock after the commit is 7, not 10 − 2 = 8 — the
claim's per-line equality fails at this input. -/
theorem C1_duplicate_item_counterexample :
    isCommitted (tab2Confirm ⟨[], [], [⟨"Gauze", 10, 5⟩]⟩
      [⟨"Gauze", 2, 5, 10⟩, ⟨"Gauze", 3, 5, 15⟩] "Walk-in" "2026-01-01 10:00:00"
      noFail).out = true ∧
    stockOf (⟨[], [], [⟨"Gauze", 10, 5⟩]⟩ : DB).inventory "Gauze" = some 10 ∧
    ([⟨"Gauze", 2, 5, 10⟩, ⟨"Gauze", 3, 5, 15⟩] : List CartLine).head?.map
      CartLine.qty = some 2 ∧
    stockOf (tab2Confirm ⟨[], [], [⟨"Gauze", 10, 5⟩]⟩
      [⟨"Gauze", 2, 5, 10⟩, ⟨"Gauze", 3, 5, 15⟩] "Walk-in" "2026-01-01 10:00:00"
      noFail).db.inventory "Gauze" = some 7 ∧
    some (7 : Int) ≠ some (10 - 2 : Int) := by
  refine ⟨by decide, by decide, by decide, by decide, by decide⟩

/-- C1 witness: one line of qty 3 on "Gauze" with stock 10; after the
successful checkout the stock reads 10 − 3. -/
theorem C1_stock_decrement_per_line_witness :
    (tab2Confirm ⟨[], [], [⟨"Gauze", 10, 5⟩]⟩ [⟨"Gauze", 3, 5, 15⟩] "Walk-in"
        "2026-01-01 09:00:00" noFail).out =
      .ok ⟨1001, docOf 1001 "Walk-in" "2026-01-01 09:00:00" [⟨"Gauze", 3, 5, 15⟩]
            (cartTotal [⟨"Gauze", 3, 5, 15⟩]), "Invoice_1001.pdf"⟩ ∧
    (([⟨"Gauze", 3, 5, 15⟩] : List CartLine).map CartLine.item).Nodup ∧
    stockOf (⟨[], [], [⟨"Gauze", 10, 5⟩]⟩ : DB).inventory "Gauze" = some 10 ∧
    stockOf (tab2Confirm ⟨[], [], [⟨"Gauze", 10, 5⟩]⟩ [⟨"Gauze", 3, 5, 15⟩]
      "Walk-in" "2026-01-01 09:00:00" noFail).db.inventory "Gauze" =
      some (10 - 3 : Int) := by
  have h1 : (tab2Confirm ⟨[], [], [⟨"Gauze", 10, 5⟩]⟩ [⟨"Gauze", 3, 5, 15⟩] "Walk-in"
      "2026-01-01 09:00:00" noFail).out =
      .ok ⟨1001, docOf 1001 "Walk-in" "2026-01-01 09:00:00" [⟨"Gauze", 3, 5, 15⟩]
            (cartTotal [⟨"Gauze", 3, 5, 15⟩]), "Invoice_1001.pdf"⟩ := by decide
  have h2 : (([⟨"Gauze", 3, 5, 15⟩] : List CartLine).map CartLine.item).Nodup := by
    decide
  have h3 : stockOf (⟨[], [], [⟨"Gauze", 10, 5⟩]⟩ : DB).inventory "Gauze" =
      some 10 := by decide
  exact ⟨h1, h2, h3,
    C1_stock_decrement_per_line _ _ _ _ _ h1 h2 ⟨"Gauze", 3, 5, 15⟩ (by decide) 10 h3⟩

/-- C2 counterexample: with zero cart lines at a concrete store the handler
is not rendered and nothing fails — in particular the outcome is not a
ValidationError, contrary to the claim's wording. -/
theorem C2_no_validation_error_counterexample :
    (tab2Confirm ⟨[], [], [⟨"Gauze", 10, 5⟩]⟩ [] "Walk-in" "2026-01-01 00:00:00"
      noFail).out = .notRendered ∧
    (tab2Confirm ⟨[], [], [⟨"Gauze", 10, 5⟩]⟩ [] "Walk-in" "2026-01-01 00:00:00"
      noFail).out ≠ .err .validationError ∧
    (tab2Confirm ⟨[], [], [⟨"Gauze", 10, 5⟩]⟩ [] "Walk-in" "2026-01-01 00:00:00"
      noFail).db = ⟨[], [], [⟨"Gauze", 10, 5⟩]⟩ := by
  refine ⟨rfl, by decide, rfl⟩

/-- C3 witness: the line-item append (adapter call 7) raises after the
header append and the stock write already landed; the shown error is the
raised one, the cart survives, and the store is exactly the initial store
with the traced writes (header row, stock 10 → 8) replayed — nothing rolled
back. -/
theorem C3_failure_surfaced_unmodified_witness :
    (tab2Confirm ⟨[], [], [⟨"Gauze", 10, 5⟩]⟩ [⟨"Gauze", 2, 5, 10⟩] "Walk-in"
      "2026-01-03 00:00:00" ⟨some 7, .adapter "boom"⟩).out =
      .err (.adapter "boom") ∧
    (tab2Confirm ⟨[], [], [⟨"Gauze", 10, 5⟩]⟩ [⟨"Gauze", 2, 5, 10⟩] "Walk-in"
      "2026-01-03 00:00:00" ⟨some 7, .adapter "boom"⟩).cart =
      [⟨"Gauze", 2, 5, 10⟩] ∧
    (tab2Confirm ⟨[], [], [⟨"Gauze", 10, 5⟩]⟩ [⟨"Gauze", 2, 5, 10⟩] "Walk-in"
      "2026-01-03 00:00:00" ⟨some 7, .adapter "boom"⟩).db =
      replayEvents ⟨[], [], [⟨"Gauze", 10, 5⟩]⟩
        (tab2Confirm ⟨[], [], [⟨"Gauze", 10, 5⟩]⟩ [⟨"Gauze", 2, 5, 10⟩] "Walk-in"
          "2026-01-03 00:00:00" ⟨some 7, .adapter "boom"⟩).trace := by
  have h1 : (tab2Confirm ⟨[], [], [⟨"Gauze", 10, 5⟩]⟩ [⟨"Gauze", 2, 5, 10⟩] "Walk-in"
      "2026-01-03 00:00:00" ⟨some 7, .adapter "boom"⟩).out =
      .err (.adapter "boom") := by decide
  have h := C3_failure_surfaced_unmodified ⟨[], [], [⟨"Gauze", 10, 5⟩]⟩
    [⟨"Gauze", 2, 5, 10⟩] "Walk-in" "2026-01-03 00:00:00" 7 (.adapter "boom")
    (.adapter "boom") h1 (by decide)
  exact ⟨h1, h.2.1, h.2.2.1⟩

/-- C4 counterexample: the claim's "re-read that item's current stock at
that point" (modelled by `rereadLoop`) accumulates the decrements of two
lines on one item to 5, while the source's snapshot-based loop leaves 7;
the behaviours differ, so the claim's description of the loop is wrong. -/
theorem C4_reread_counterexample :
    (tab2Confirm ⟨[], [], [⟨"Gauze", 10, 5⟩]⟩
      [⟨"Gauze", 2, 5, 10⟩, ⟨"Gauze", 3, 5, 15⟩] "Walk-in" "2026-01-01 10:00:00"
      noFail).db.inventory = [⟨"Gauze", 7, 5⟩] ∧
    rereadLoop [⟨"Gauze", 10, 5⟩] [⟨"Gauze", 2, 5, 10⟩, ⟨"Gauze", 3, 5, 15⟩] =
      some [⟨"Gauze", 5, 5⟩] ∧
    ([⟨"Gauze", 7, 5⟩] : List StockRow) ≠ [⟨"Gauze", 5, 5⟩] := by
  refine ⟨by decide, by decide, by decide⟩

/-- C4 witness: the emitted operation order for a concrete one-line cart. -/
theorem C4_commit_order_witness :
    (tab2Confirm ⟨[], [], [⟨"Gauze", 10, 5⟩]⟩ [⟨"Gauze", 2, 5, 10⟩] "Walk-in"
        "2026-01-04 00:00:00" noFail).out =
      .ok ⟨1001, docOf 1001 "Walk-in" "2026-01-04 00:00:00" [⟨"Gauze", 2, 5, 10⟩]
            (cartTotal [⟨"Gauze", 2, 5, 10⟩]), "Invoice_1001.pdf"⟩ ∧
    (tab2Confirm ⟨[], [], [⟨"Gauze", 10, 5⟩]⟩ [⟨"Gauze", 2, 5, 10⟩] "Walk-in"
        "2026-01-04 00:00:00" noFail).trace =
      [.countInvoices,
       .appendInvoice ⟨nextInvId ⟨[], [], [⟨"Gauze", 10, 5⟩]⟩, "Walk-in",
         "2026-01-04 00:00:00", cartTotal [⟨"Gauze", 2, 5, 10⟩]⟩,
       .readSnapshot] ++
      ([⟨"Gauze", 2, 5, 10⟩] : List CartLine).flatMap
        (lineEvents (⟨[], [], [⟨"Gauze", 10, 5⟩]⟩ : DB).inventory
          (nextInvId ⟨[], [], [⟨"Gauze", 10, 5⟩]⟩)) ++
      [.render] ∧
    (tab2Confirm ⟨[], [], [⟨"Gauze", 10, 5⟩]⟩ [⟨"Gauze", 2, 5, 10⟩] "Walk-in"
      "2026-01-04 00:00:00" noFail).cart = [] := by
  have h1 : (tab2Confirm ⟨[], [], [⟨"Gauze", 10, 5⟩]⟩ [⟨"Gauze", 2, 5, 10⟩] "Walk-in"
      "2026-01-04 00:00:00" noFail).out =
      .ok ⟨1001, docOf 1001 "Walk-in" "2026-01-04 00:00:00" [⟨"Gauze", 2, 5, 10⟩]
            (cartTotal [⟨"Gauze", 2, 5, 10⟩]), "Invoice_1001.pdf"⟩ := by decide
  have h := C4_commit_order _ _ _ _ _ h1
  exact ⟨h1, h.1, h.2⟩

/-- C5 witness: the spec's example — "Gauze" stock 2, addLine qty 5 — fails
reporting available = 2 and leaves cart and store unchanged. -/
theorem C5_add_to_cart_witness :
    (⟨[], [], [⟨"Gauze", 2, 5⟩]⟩ : DB).inventory.find?
      (fun r => r.name == "Gauze") = some ⟨"Gauze", 2, 5⟩ ∧
    ((5 : Nat) : Int) > (2 : Int) ∧
    tab2AddToCart ⟨[], [], [⟨"Gauze", 2, 5⟩]⟩ [] "Gauze" 5 =
      (⟨[], [], [⟨"Gauze", 2, 5⟩]⟩, [], some (.insufficientStock 2)) := by
  have hfind : (⟨[], [], [⟨"Gauze", 2, 5⟩]⟩ : DB).inventory.find?
      (fun r => r.name == "Gauze") = some ⟨"Gauze", 2, 5⟩ := by decide
  exact ⟨hfind, by decide, (C5_add_to_cart _ [] "Gauze" 5 _ hfind).1 (by decide)⟩

/-- C6 witness: a successful two-line checkout; the document has the two
rows in order and the grand total renders the 25.00 cart total. -/
theorem C6_document_rows_total_witness :
    (tab2Confirm ⟨[], [], [⟨"Gauze", 10, 5⟩, ⟨"Tape", 4, 2⟩]⟩
        [⟨"Gauze", 3, 5, 15⟩, ⟨"Tape", 5, 2, 10⟩] "Walk-in" "2026-01-05 00:00:00"
        noFail).out =
      .ok ⟨1001, docOf 1001 "Walk-in" "2026-01-05 00:00:00"
            [⟨"Gauze", 3, 5, 15⟩, ⟨"Tape", 5, 2, 10⟩]
            (cartTotal [⟨"Gauze", 3, 5, 15⟩, ⟨"Tape", 5, 2, 10⟩]),
           "Invoice_1001.pdf"⟩ ∧
    (docOf 1001 "Walk-in" "2026-01-05 00:00:00"
        [⟨"Gauze", 3, 5, 15⟩, ⟨"Tape", 5, 2, 10⟩]
        (cartTotal [⟨"Gauze", 3, 5, 15⟩, ⟨"Tape", 5, 2, 10⟩])).rows =
      ([⟨"Gauze", 3, 5, 15⟩, ⟨"Tape", 5, 2, 10⟩] : List CartLine).map (fun l =>
        (clean l.item, natStr l.qty, fixed2 l.price, fixed2 l.subtotal)) ∧
    (docOf 1001 "Walk-in" "2026-01-05 00:00:00"
        [⟨"Gauze", 3, 5, 15⟩, ⟨"Tape", 5, 2, 10⟩]
        (cartTotal [⟨"Gauze", 3, 5, 15⟩, ⟨"Tape", 5, 2, 10⟩])).rows.length =
      ([⟨"Gauze", 3, 5, 15⟩, ⟨"Tape", 5, 2, 10⟩] : List CartLine).length ∧
    (docOf 1001 "Walk-in" "2026-01-05 00:00:00"
        [⟨"Gauze", 3, 5, 15⟩, ⟨"Tape", 5, 2, 10⟩]
        (cartTotal [⟨"Gauze", 3, 5, 15⟩, ⟨"Tape", 5, 2, 10⟩])).grandTotal =
      commaFixed2 (cartTotal [⟨"Gauze", 3, 5, 15⟩, ⟨"Tape", 5, 2, 10⟩]) ∧
    cartTotal [⟨"Gauze", 3, 5, 15⟩, ⟨"Tape", 5, 2, 10⟩] =
      (([⟨"Gauze", 3, 5, 15⟩, ⟨"Tape", 5, 2, 10⟩] : List CartLine).map
        (fun l => (l.qty : ℚ) * l.price)).sum := by
  have h1 : (tab2Confirm ⟨[], [], [⟨"Gauze", 10, 5⟩, ⟨"Tape", 4, 2⟩]⟩
      [⟨"Gauze", 3, 5, 15⟩, ⟨"Tape", 5, 2, 10⟩] "Walk-in" "2026-01-05 00:00:00"
      noFail).out =
      .ok ⟨1001, docOf 1001 "Walk-in" "2026-01-05 00:00:00"
            [⟨"Gauze", 3, 5, 15⟩, ⟨"Tape", 5, 2, 10⟩]
            (cartTotal [⟨"Gauze", 3, 5, 15⟩, ⟨"Tape", 5, 2, 10⟩]),
           "Invoice_1001.pdf"⟩ := by decide
  have h := C6_document_rows_total _ _ _ _ _ h1 (by decide)
  exact ⟨h1, h.1, h.2.1, h.2.2.1, h.2.2.2⟩

/-- C7 witness: one pre-existing header row, so the assigned id is
1 + 1001 = 1002; the header count grows by one and the next id would be
1003. -/
theorem C7_invoice_id_offset_witness :
    (tab2Confirm ⟨[⟨1001, "A", "2025-12-31 00:00:00", 3⟩], [], [⟨"Gauze", 10, 5⟩]⟩
        [⟨"Gauze", 2, 5, 10⟩] "Walk-in" "2026-01-06 00:00:00" noFail).out =
      .ok ⟨1002, docOf 1002 "Walk-in" "2026-01-06 00:00:00" [⟨"Gauze", 2, 5, 10⟩]
            (cartTotal [⟨"Gauze", 2, 5, 10⟩]), "Invoice_1002.pdf"⟩ ∧
    (1002 : Nat) = 1 + 1001 ∧
    (tab2Confirm ⟨[⟨1001, "A", "2025-12-31 00:00:00", 3⟩], [], [⟨"Gauze", 10, 5⟩]⟩
      [⟨"Gauze", 2, 5, 10⟩] "Walk-in" "2026-01-06 00:00:00"
      noFail).db.invoices.length = 1 + 1 ∧
    nextInvId (tab2Confirm ⟨[⟨1001, "A", "2025-12-31 00:00:00", 3⟩], [],
      [⟨"Gauze", 10, 5⟩]⟩ [⟨"Gauze", 2, 5, 10⟩] "Walk-in" "2026-01-06 00:00:00"
      noFail).db = 1002 + 1 := by
  have h1 : (tab2Confirm ⟨[⟨1001, "A", "2025-12-31 00:00:00", 3⟩], [],
      [⟨"Gauze", 10, 5⟩]⟩ [⟨"Gauze", 2, 5, 10⟩] "Walk-in" "2026-01-06 00:00:00"
      noFail).out =
      .ok ⟨1002, docOf 1002 "Walk-in" "2026-01-06 00:00:00" [⟨"Gauze", 2, 5, 10⟩]
            (cartTotal [⟨"Gauze", 2, 5, 10⟩]), "Invoice_1002.pdf"⟩ := by decide
  have h := C7_invoice_id_offset _ _ _ _ _ h1
  exact ⟨h1, h.1, h.2.1, h.2.2⟩

/-- C8 witness: "Bandage" appears in no cell of the sheet; removeItem shows
"Item not found." and the sheet is unchanged. -/
theorem C8_remove_absent_unchanged_witness :
    (∀ row ∈ ([["Item Name", "Stock Qty", "Unit Price"], ["Gauze", "5", "2.0"]] :
        Sheet), row.contains "Bandage" = false) ∧
    delete_item [["Item Name", "Stock Qty", "Unit Price"], ["Gauze", "5", "2.0"]]
        "Bandage" =
      ([["Item Name", "Stock Qty", "Unit Price"], ["Gauze", "5", "2.0"]], false) := by
  exact ⟨by decide, C8_remove_absent_unchanged _ _ (by decide)⟩

/-- C10 witness: lines of qty 2 and qty 4 on "Gauze" with stock 10; after
the successful commit the stock is 10 minus the LAST line's qty (= 6), and
the trace holds exactly one snapshot read. -/
theorem C10_snapshot_last_line_witness :
    (tab2Confirm ⟨[], [], [⟨"Gauze", 10, 5⟩]⟩
        [⟨"Gauze", 2, 5, 10⟩, ⟨"Gauze", 4, 5, 20⟩] "Walk-in" "2026-01-07 00:00:00"
        noFail).out =
      .ok ⟨1001, docOf 1001 "Walk-in" "2026-01-07 00:00:00"
            [⟨"Gauze", 2, 5, 10⟩, ⟨"Gauze", 4, 5, 20⟩]
            (cartTotal [⟨"Gauze", 2, 5, 10⟩, ⟨"Gauze", 4, 5, 20⟩]),
           "Invoice_1001.pdf"⟩ ∧
    lastLineFor "Gauze" [⟨"Gauze", 2, 5, 10⟩, ⟨"Gauze", 4, 5, 20⟩] =
      some ⟨"Gauze", 4, 5, 20⟩ ∧
    stockOf (⟨[], [], [⟨"Gauze", 10, 5⟩]⟩ : DB).inventory "Gauze" = some 10 ∧
    stockOf (tab2Confirm ⟨[], [], [⟨"Gauze", 10, 5⟩]⟩
        [⟨"Gauze", 2, 5, 10⟩, ⟨"Gauze", 4, 5, 20⟩] "Walk-in" "2026-01-07 00:00:00"
        noFail).db.inventory "Gauze" = some (10 - 4 : Int) ∧
    (tab2Confirm ⟨[], [], [⟨"Gauze", 10, 5⟩]⟩
      [⟨"Gauze", 2, 5, 10⟩, ⟨"Gauze", 4, 5, 20⟩] "Walk-in" "2026-01-07 00:00:00"
      noFail).trace.count Ev.readSnapshot = 1 := by
  have h1 : (tab2Confirm ⟨[], [], [⟨"Gauze", 10, 5⟩]⟩
      [⟨"Gauze", 2, 5, 10⟩, ⟨"Gauze", 4, 5, 20⟩] "Walk-in" "2026-01-07 00:00:00"
      noFail).out =
      .ok ⟨1001, docOf 1001 "Walk-in" "2026-01-07 00:00:00"
            [⟨"Gauze", 2, 5, 10⟩, ⟨"Gauze", 4, 5, 20⟩]
            (cartTotal [⟨"Gauze", 2, 5, 10⟩, ⟨"Gauze", 4, 5, 20⟩]),
           "Invoice_1001.pdf"⟩ := by decide
  have h2 : lastLineFor "Gauze" [⟨"Gauze", 2, 5, 10⟩, ⟨"Gauze", 4, 5, 20⟩] =
      some ⟨"Gauze", 4, 5, 20⟩ := by decide
  have h3 : stockOf (⟨[], [], [⟨"Gauze", 10, 5⟩]⟩ : DB).inventory "Gauze" =
      some 10 := by decide
  have h := C10_snapshot_last_line _ _ _ _ "Gauze" _ _ 10 h1 h2 h3
  exact ⟨h1, h2, h3, h.1, h.2⟩

end

end Medsurg
